import Mathlib

/-
  Verification of the Interreg North Sea scraper (src/Interreg_scraper.py).
  Text is modelled as lists of characters; the HTML parse collaborator is
  modelled as a tree of element nodes carrying the accessor values the code
  reads (tag name, trimmed text, class list, attribute list, children).
  Network transport is modelled as an explicit fetch outcome, so fallible
  code becomes a total function on that outcome.
-/

namespace Interreg

/-- Text, modelled as a list of characters (Python str). -/
abbrev Str := List Char

/-- Convert a Lean string literal to the text model. -/
def str (s : String) : Str := s.toList

/-- Python str.lower restricted to ASCII, matching the data the scraper handles. -/
def lowerStr (s : Str) : Str := s.map Char.toLower

/-- Python str.strip: remove leading and trailing whitespace. -/
def stripStr (s : Str) : Str :=
  ((s.dropWhile Char.isWhitespace).reverse.dropWhile Char.isWhitespace).reverse

/-- Is `pre` a leading segment of `s`? (helper for substring search) -/
def prefixMatch : Str → Str → Bool
  | [], _ => true
  | _ :: _, [] => false
  | a :: as, b :: bs => a == b && prefixMatch as bs

/-- Python `needle in hay` substring containment. -/
def substrMatch (needle : Str) : Str → Bool
  | [] => needle.isEmpty
  | c :: t => prefixMatch needle (c :: t) || substrMatch needle t

/-- One row of the listing table (scrape_project_data, lines 55-66). -/
structure ListingRecord where
  call : Str
  priority : Str
  specific_objective : Str
  acronym : Str
  summary : Str
  lead_partner : Str
  start_end : Str
  total_budget : Str
  erdf_funding : Str
  norway_funding : Str
deriving DecidableEq, Repr

/-- Cell accessor used by scrape_project_data: take cell i when the row has
more than i cells (text trimmed), otherwise the empty string. -/
def cellField (cells : List Str) (i : Nat) : Str :=
  if i < cells.length then stripStr (cells.getD i []) else []

/-- The dict built for one kept row (lines 55-66): field i is cell i. -/
def project_data_row (cells : List Str) : ListingRecord :=
  { call := cellField cells 0
  , priority := cellField cells 1
  , specific_objective := cellField cells 2
  , acronym := cellField cells 3
  , summary := cellField cells 4
  , lead_partner := cellField cells 5
  , start_end := cellField cells 6
  , total_budget := cellField cells 7
  , erdf_funding := cellField cells 8
  , norway_funding := cellField cells 9 }

/-- Core of scrape_project_data (lines 51-67): the input is the list of
non-header table rows, each row the list of its cell texts; rows with
fewer than 4 cells are skipped. -/
def scrape_project_data (rows : List (List Str)) : List ListingRecord :=
  match rows with
  | [] => []
  | row :: rest =>
    if 4 ≤ row.length then project_data_row row :: scrape_project_data rest
    else scrape_project_data rest

/-- The ten fields of a ListingRecord in column order. -/
def listingFields (r : ListingRecord) : List Str :=
  [r.call, r.priority, r.specific_objective, r.acronym, r.summary,
   r.lead_partner, r.start_end, r.total_budget, r.erdf_funding, r.norway_funding]

theorem scrape_project_data_filter (rows : List (List Str)) :
    scrape_project_data rows
      = (rows.filter (fun r => decide (4 ≤ r.length))).map project_data_row := by
  induction rows with
  | nil => rfl
  | cons row rest ih =>
    by_cases h : 4 ≤ row.length
    · simp [scrape_project_data, List.filter_cons, h, ih]
    · simp [scrape_project_data, List.filter_cons, h, ih]

/-- C8: the listing extractor keeps exactly the rows with at least 4 cells, in
document order; its length is the number of rows minus the skipped ones; and
field i of a kept row is the trimmed text of cell i, with indices beyond the
row mapping to the empty string. -/
theorem c8_listing_rows (rows : List (List Str)) :
    scrape_project_data rows
        = (rows.filter (fun r => decide (4 ≤ r.length))).map project_data_row
    ∧ (scrape_project_data rows).length
        = rows.length - rows.countP (fun r => decide (r.length < 4))
    ∧ ∀ row, listingFields (project_data_row row)
        = (List.range 10).map
            (fun i => if i < row.length then stripStr (row.getD i []) else []) := by
  refine ⟨scrape_project_data_filter rows, ?_, ?_⟩
  · rw [scrape_project_data_filter rows]
    induction rows with
    | nil => rfl
    | cons row rest ih =>
      have hle : rest.countP (fun r => decide (r.length < 4)) ≤ rest.length :=
        List.countP_le_length _
      simp only [List.length_map] at ih
      by_cases h : 4 ≤ row.length
      · have h' : ¬ row.length < 4 := by omega
        simp [List.filter_cons, List.countP_cons, h, h']
        omega
      · have h' : row.length < 4 := by omega
        simp [List.filter_cons, List.countP_cons, h, h']
        omega
  · intro row
    have h10 : List.range 10 = [0, 1, 2, 3, 4, 5, 6, 7, 8, 9] := rfl
    simp [h10, listingFields, project_data_row, cellField]

/-- Result of visiting one detail page (scrape_project_details, lines 94-107). -/
structure DetailRecord where
  acronym : Str
  url : Str
  status : Str
  title : Str
  description : Str
  objectives : Str
  partners : Str
  start_date : Str
  end_date : Str
  budget : Str
  main_content : Str
  error : Str
deriving DecidableEq, Repr

/-- One consolidated row (create_ultimate_files, lines 324-371). -/
structure UltimateRecord where
  acronym : Str
  call : Str
  priority : Str
  specific_objective : Str
  summary : Str
  lead_partner : Str
  start_end : Str
  total_budget : Str
  erdf_funding : Str
  norway_funding : Str
  project_url : Str
  status : Str
  title : Str
  description : Str
  objectives : Str
  partners : Str
  start_date : Str
  end_date : Str
  budget : Str
  main_content : Str
  error : Str
deriving DecidableEq, Repr

/-- Lookup of the detail record for a listing row (line 320): Python
`next(pd for pd in project_details if pd.acronym == project.acronym)`
with default None, i.e. the first match. -/
def find_project_detail (details : List DetailRecord) (p : ListingRecord) :
    Option DetailRecord :=
  details.find? (fun d => d.acronym == p.acronym)

/-- The combined row when a matching detail record exists (lines 324-346). -/
def ultimate_row_matched (p : ListingRecord) (d : DetailRecord) : UltimateRecord :=
  { acronym := p.acronym
  , call := p.call
  , priority := p.priority
  , specific_objective := p.specific_objective
  , summary := p.summary
  , lead_partner := p.lead_partner
  , start_end := p.start_end
  , total_budget := p.total_budget
  , erdf_funding := p.erdf_funding
  , norway_funding := p.norway_funding
  , project_url := d.url
  , status := d.status
  , title := d.title
  , description := d.description
  , objectives := d.objectives
  , partners := d.partners
  , start_date := d.start_date
  , end_date := d.end_date
  , budget := d.budget
  , main_content := d.main_content
  , error := d.error }

/-- The fallback row when no detail record matches (lines 349-371). -/
def ultimate_row_unmatched (p : ListingRecord) : UltimateRecord :=
  { acronym := p.acronym
  , call := p.call
  , priority := p.priority
  , specific_objective := p.specific_objective
  , summary := p.summary
  , lead_partner := p.lead_partner
  , start_end := p.start_end
  , total_budget := p.total_budget
  , erdf_funding := p.erdf_funding
  , norway_funding := p.norway_funding
  , project_url := []
  , status := str "not_scraped"
  , title := []
  , description := []
  , objectives := []
  , partners := []
  , start_date := []
  , end_date := []
  , budget := []
  , main_content := []
  , error := str "No detailed information available" }

/-- The consolidation loop of create_ultimate_files (lines 316-373). -/
def create_ultimate_rows (projects : List ListingRecord)
    (details : List DetailRecord) : List UltimateRecord :=
  match projects with
  | [] => []
  | p :: rest =>
    (match find_project_detail details p with
     | some d => ultimate_row_matched p d
     | none => ultimate_row_unmatched p) :: create_ultimate_rows rest details

/-- Characterisation of List.find? as the first match. -/
theorem find?_some_first {α : Type} (q : α → Bool) :
    ∀ (xs : List α) (d : α), xs.find? q = some d →
      ∃ j : Nat, xs[j]? = some d ∧ q d = true ∧
        ∀ k : Nat, k < j → ∀ x, xs[k]? = some x → q x = false := by
  intro xs
  induction xs with
  | nil => intro d h; simp [List.find?] at h
  | cons a t ih =>
    intro d h
    rw [List.find?] at h
    by_cases ha : q a
    · simp [ha] at h
      refine ⟨0, by simp [h], by rw [h] at ha; simp [ha], ?_⟩
      intro k hk; omega
    · simp [ha] at h
      obtain ⟨j, hj, hqd, hfirst⟩ := ih d h
      refine ⟨j + 1, by simpa using hj, hqd, ?_⟩
      intro k hk x hx
      match k with
      | 0 => simp at hx; rw [hx] at ha; simpa using ha
      | k + 1 =>
        exact hfirst k (by omega) x (by simpa using hx)

theorem create_ultimate_rows_get (L : List ListingRecord) (D : List DetailRecord) :
    ∀ i : Nat, (create_ultimate_rows L D)[i]?
      = (L[i]?).map (fun p =>
          match find_project_detail D p with
          | some d => ultimate_row_matched p d
          | none => ultimate_row_unmatched p) := by
  induction L with
  | nil => intro i; simp [create_ultimate_rows]
  | cons p rest ih =>
    intro i
    match i with
    | 0 => simp [create_ultimate_rows]
    | i + 1 => simpa [create_ultimate_rows] using ih i

/-- C1: consolidation is a non-lossy left join. One output row per listing row,
in listing order; a row is built from the first detail record whose acronym
matches, or from the fallback when none matches; and a detail record matching
no listing contributes nothing (appending it changes nothing). -/
theorem c1_merge_left_join (L : List ListingRecord) (D : List DetailRecord) :
    (create_ultimate_rows L D).length = L.length
    ∧ (∀ (i : Nat) (p : ListingRecord), L[i]? = some p →
        (∃ (j : Nat) (d : DetailRecord), D[j]? = some d ∧ d.acronym = p.acronym
          ∧ (∀ k : Nat, k < j → ∀ x, D[k]? = some x → x.acronym ≠ p.acronym)
          ∧ (create_ultimate_rows L D)[i]? = some (ultimate_row_matched p d))
        ∨ ((∀ d ∈ D, d.acronym ≠ p.acronym)
          ∧ (create_ultimate_rows L D)[i]? = some (ultimate_row_unmatched p)))
    ∧ (∀ d₀, (∀ p ∈ L, d₀.acronym ≠ p.acronym) →
        create_ultimate_rows L (D ++ [d₀]) = create_ultimate_rows L D) := by
  refine ⟨?_, ?_, ?_⟩
  · induction L with
    | nil => rfl
    | cons p rest ih => simpa [create_ultimate_rows] using ih
  · intro i p hp
    have hg := create_ultimate_rows_get L D i
    rw [hp] at hg
    have hg2 : (create_ultimate_rows L D)[i]?
        = some (match find_project_detail D p with
                | some d => ultimate_row_matched p d
                | none => ultimate_row_unmatched p) := by rw [hg]; rfl
    cases hfind : find_project_detail D p with
    | some d =>
      obtain ⟨j, hj, hqd, hfirst⟩ := find?_some_first _ D d hfind
      left
      refine ⟨j, d, hj, by simpa using hqd, ?_, by rw [hg2, hfind]⟩
      intro k hk x hx
      have := hfirst k hk x hx
      simpa using this
    | none =>
      right
      refine ⟨?_, by rw [hg2, hfind]⟩
      intro d hd
      have := List.find?_eq_none.mp hfind d hd
      simpa using this
  · intro d₀ hd₀
    induction L with
    | nil => rfl
    | cons p rest ih =>
      have hp : d₀.acronym ≠ p.acronym := hd₀ p (by simp)
      have hrest : ∀ p ∈ rest, d₀.acronym ≠ p.acronym := by
        intro x hx; exact hd₀ x (by simp [hx])
      have hfind : find_project_detail (D ++ [d₀]) p = find_project_detail D p := by
        unfold find_project_detail
        cases hD : D.find? (fun d => d.acronym == p.acronym) with
        | some d => rw [List.find?_append, hD]; rfl
        | none =>
          rw [List.find?_append, hD]
          have hb : (d₀.acronym == p.acronym) = false := by simpa using hp
          simp [List.find?, hb]
      simp [create_ultimate_rows, hfind, ih hrest]

/-- A sample listing row used by concrete witnesses. -/
def sampleListing : ListingRecord :=
  { call := str "Call 1"
  , priority := str "Priority 1"
  , specific_objective := []
  , acronym := str "ABC"
  , summary := []
  , lead_partner := []
  , start_end := []
  , total_budget := []
  , erdf_funding := []
  , norway_funding := [] }

/-- A sample detail record (with a different acronym) used by witnesses. -/
def sampleDetail : DetailRecord :=
  { acronym := str "XYZ"
  , url := str "u"
  , status := str "success"
  , title := []
  , description := []
  , objectives := []
  , partners := []
  , start_date := []
  , end_date := []
  , budget := []
  , main_content := []
  , error := [] }

theorem c1_merge_left_join_witness :
    create_ultimate_rows [sampleListing] ([] ++ [sampleDetail])
      = create_ultimate_rows [sampleListing] [] :=
  (c1_merge_left_join [sampleListing] []).2.2 sampleDetail (by decide)

/-- C6: a listing row with no matching detail record yields a row whose listing
fields are copied, whose detail fields are all empty, with status not_scraped
and the fixed error message. -/
theorem c6_unmatched_row (L : List ListingRecord) (D : List DetailRecord)
    (i : Nat) (p : ListingRecord) (hp : L[i]? = some p)
    (hnone : ∀ d ∈ D, d.acronym ≠ p.acronym) :
    (create_ultimate_rows L D)[i]?
      = some
        { acronym := p.acronym
        , call := p.call
        , priority := p.priority
        , specific_objective := p.specific_objective
        , summary := p.summary
        , lead_partner := p.lead_partner
        , start_end := p.start_end
        , total_budget := p.total_budget
        , erdf_funding := p.erdf_funding
        , norway_funding := p.norway_funding
        , project_url := []
        , status := str "not_scraped"
        , title := []
        , description := []
        , objectives := []
        , partners := []
        , start_date := []
        , end_date := []
        , budget := []
        , main_content := []
        , error := str "No detailed information available" } := by
  have hg := create_ultimate_rows_get L D i
  rw [hp] at hg
  have hfind : find_project_detail D p = none := by
    unfold find_project_detail
    rw [List.find?_eq_none]
    intro d hd
    simpa using hnone d hd
  have hg2 : (create_ultimate_rows L D)[i]?
      = some (match find_project_detail D p with
              | some d => ultimate_row_matched p d
              | none => ultimate_row_unmatched p) := by rw [hg]; rfl
  rw [hg2, hfind]
  rfl

theorem c6_unmatched_row_witness :
    (create_ultimate_rows [sampleListing] [sampleDetail])[0]?
      = some
        { acronym := sampleListing.acronym
        , call := sampleListing.call
        , priority := sampleListing.priority
        , specific_objective := sampleListing.specific_objective
        , summary := sampleListing.summary
        , lead_partner := sampleListing.lead_partner
        , start_end := sampleListing.start_end
        , total_budget := sampleListing.total_budget
        , erdf_funding := sampleListing.erdf_funding
        , norway_funding := sampleListing.norway_funding
        , project_url := []
        , status := str "not_scraped"
        , title := []
        , description := []
        , objectives := []
        , partners := []
        , start_date := []
        , end_date := []
        , budget := []
        , main_content := []
        , error := str "No detailed information available" } :=
  c6_unmatched_row [sampleListing] [sampleDetail] 0 sampleListing (by rfl) (by decide)

/-- What the export step observably does (create_ultimate_files, lines
375-393), modelled over the no-I/O-error path: the CSV file is always opened
for writing (hence created), the header and data rows are written only when
the dataset is non-empty, the JSON dump always receives the dataset, and the
function returns the pair of file paths. -/
structure UltimateFilesOutcome where
  csvFileCreated : Bool
  csvHeader : Option (List Str)
  csvRows : List UltimateRecord
  jsonData : List UltimateRecord
  returnsPaths : Bool
deriving DecidableEq, Repr

/-- The CSV fieldnames: the keys of the first row dict, whose insertion order
is the same fixed 21-key order in both branches (lines 324-345 and 349-371). -/
def ultimate_fieldnames : List Str :=
  [str "acronym", str "call", str "priority", str "specific_objective",
   str "summary", str "lead_partner", str "start_end", str "total_budget",
   str "erdf_funding", str "norway_funding", str "project_url", str "status",
   str "title", str "description", str "objectives", str "partners",
   str "start_date", str "end_date", str "budget", str "main_content",
   str "error"]

/-- create_ultimate_files (lines 305-397): build the dataset, open the CSV
file, write header and rows only if the dataset is non-empty, dump the JSON,
return the two paths. -/
def create_ultimate_files (projects : List ListingRecord)
    (details : List DetailRecord) : UltimateFilesOutcome :=
  let ultimate_data := create_ultimate_rows projects details
  { csvFileCreated := true
  , csvHeader := if ultimate_data.isEmpty then none else some ultimate_fieldnames
  , csvRows := if ultimate_data.isEmpty then [] else ultimate_data
  , jsonData := ultimate_data
  , returnsPaths := true }

/-- C7 counterexample: on an empty dataset the export does not fail. It still
creates the CSV file, still writes the JSON artifact, and returns the paths,
contradicting the claimed EmptyInput failure. -/
theorem c7_counterexample :
    (create_ultimate_files [] []).returnsPaths = true
    ∧ (create_ultimate_files [] []).csvFileCreated = true
    ∧ (create_ultimate_files [] []).jsonData = [] :=
  ⟨rfl, rfl, rfl⟩

/-- C7 amended: given a zero-length listing sequence the export succeeds
rather than failing: the CSV file is created but neither header nor rows are
written, the JSON artifact holds the empty dataset, and both paths are
returned. -/
theorem c7_empty_export (details : List DetailRecord) :
    create_ultimate_files [] details
      = { csvFileCreated := true
        , csvHeader := none
        , csvRows := []
        , jsonData := []
        , returnsPaths := true } := rfl

/-- A parsed HTML element as the scraper observes it: tag name, trimmed text
(the get_text accessor with strip), class list, attribute list, children. -/
inductive Node : Type where
  | mk (name : Str) (text : Str) (classes : List Str) (attrs : List (Str × Str))
       (children : List Node)

def Node.name : Node → Str
  | .mk n _ _ _ _ => n

def Node.text : Node → Str
  | .mk _ t _ _ _ => t

def Node.classes : Node → List Str
  | .mk _ _ c _ _ => c

def Node.attrs : Node → List (Str × Str)
  | .mk _ _ _ a _ => a

def Node.children : Node → List Node
  | .mk _ _ _ _ ch => ch

/-- A parsed document: the top-level element sequence plus the whole-document
text accessor (soup.get_text with no stripping). -/
structure Doc where
  roots : List Node
  allText : Str

/-- find_all in document order (preorder), pairing every match with the
following siblings at its own level, as needed for sibling traversal. -/
def findAllP (p : Node → Bool) : List Node → List (Node × List Node)
  | [] => []
  | Node.mk nm tx cls ats ch :: rest =>
    (if p (.mk nm tx cls ats ch) then [(Node.mk nm tx cls ats ch, rest)] else [])
      ++ findAllP p ch ++ findAllP p rest

/-- find_all in document order, matches only. -/
def findAllL (p : Node → Bool) (l : List Node) : List Node :=
  (findAllP p l).map Prod.fst

/-- soup.find: the first match in document order, if any. -/
def findNode (p : Node → Bool) (doc : Doc) : Option Node :=
  (findAllL p doc.roots).head?

/-- The six heading tag names. -/
def headingTags : List Str :=
  [str "h1", str "h2", str "h3", str "h4", str "h5", str "h6"]

/-- Tag-name membership test used by find_all with a tag list. -/
def tagIn (names : List Str) (n : Node) : Bool := names.contains n.name

/-- extract_section_content (lines 242-255): walk the siblings following a
heading until the next heading; keep p, div and span elements with non-empty
text longer than 10 characters; join with newlines. -/
def extract_section_content (siblings : List Node) : Str :=
  let content := (siblings.takeWhile (fun n => !(headingTags.contains n.name))).filterMap
    (fun n =>
      if (n.name == str "p" || n.name == str "div" || n.name == str "span")
          && !n.text.isEmpty && decide (10 < n.text.length)
      then some n.text else none)
  List.intercalate (str "\n") content

/-- The fixed keyword set of the partner extractor (line 182). -/
def partner_indicators : List Str :=
  [str "partner", str "partners", str "consortium", str "collaboration",
   str "team", str "members"]

/-- Character class of the regex separator [:\x7bwhitespace\x7d]. -/
def isSepChar (c : Char) : Bool := c == ':' || c.isWhitespace

/-- Character class of the regex capture: any character except a period or a
line break. -/
def isCapChar (c : Char) : Bool := !(c == '.' || c == '\n')

/-- Backtracking over the one-or-more separator run: try j separators first,
then fewer, until the capture (one-or-more capture-class characters) is
non-empty. -/
def sepBacktrack (rest : Str) : Nat → Option (Nat × Str)
  | 0 => none
  | j + 1 =>
    let cap := (rest.drop (j + 1)).takeWhile isCapChar
    if cap.isEmpty then sepBacktrack rest j else some (j + 1, cap)

/-- Case-insensitive literal match of a keyword stem at the front of `s`. -/
def stemAtFront (stem : Str) (s : Str) : Bool :=
  prefixMatch stem (lowerStr (s.take stem.length))

/-- Try to match one stem, then the separator run, then the capture, at the
front of `s`; on success return the capture and the total match length. -/
def tryStem (stem : Str) (s : Str) : Option (Str × Nat) :=
  if stemAtFront stem s then
    let rest := s.drop stem.length
    match sepBacktrack rest (rest.takeWhile isSepChar).length with
    | some (k, cap) => some (cap, stem.length + k + cap.length)
    | none => none
  else none

/-- Try the stem alternatives in the regex preference order (the optional s of
partner[s]? is tried greedily first, with backtracking to the shorter stem). -/
def tryStems : List Str → Str → Option (Str × Nat)
  | [], _ => none
  | stem :: others, s =>
    match tryStem stem s with
    | some r => some r
    | none => tryStems others s

/-- re.findall over a suffix: leftmost non-overlapping matches; fuel bounds
the recursion and one unit is spent per consumed character. -/
def regexFindAllAux (stems : List Str) : Nat → Str → List Str
  | 0, _ => []
  | _, [] => []
  | fuel + 1, c :: t =>
    match tryStems stems (c :: t) with
    | some (cap, consumed) => cap :: regexFindAllAux stems fuel ((c :: t).drop consumed)
    | none => regexFindAllAux stems fuel t

/-- re.findall with IGNORECASE for one pattern of the family
stem-alternatives, one-or-more separators, captured run (lines 226-232). -/
def regexFindAll (stems : List Str) (s : Str) : List Str :=
  regexFindAllAux stems s.length s

/-- The five partner patterns, each given by its stem alternatives in regex
preference order. -/
def partner_patterns : List (List Str) :=
  [[str "partners", str "partner"], [str "consortium"], [str "collaboration"],
   [str "team"], [str "members", str "member"]]

/-- Method 1 of extract_partner_information (lines 184-193), threaded through
the shared accumulator: for each indicator, for each heading matched by a
case-insensitive containment test, append the heading text, the section
content and the separators, when the section content is non-empty. -/
def method1from (doc : Doc) (acc : Str) : Str :=
  partner_indicators.foldl (fun acc1 indicator =>
    (findAllP (tagIn headingTags) doc.roots).foldl (fun acc2 hs =>
      if substrMatch indicator (lowerStr hs.1.text) then
        let partner_section := extract_section_content hs.2
        if partner_section.isEmpty then acc2
        else acc2 ++ hs.1.text ++ str ":\n" ++ partner_section ++ str "\n\n"
      else acc2) acc1) acc

/-- Method 2 paragraph selection (lines 196-204): paragraphs whose lowered
text contains an indicator and whose text is longer than 20 characters. -/
def partnerParagraphs (doc : Doc) : List Str :=
  (findAllL (fun n => n.name == str "p") doc.roots).filterMap (fun p =>
    if partner_indicators.any (fun ind => substrMatch ind (lowerStr p.text)) then
      if decide (20 < p.text.length) then some p.text else none
    else none)

/-- Method 3 of extract_partner_information (lines 210-222), threaded through
the shared accumulator: for each ul or ol element, collect the list items that
contain an indicator or are longer than 10 characters; if any survive, append
them under the Partner List label. -/
def method3from (doc : Doc) (acc : Str) : Str :=
  (findAllL (fun n => n.name == str "ul" || n.name == str "ol") doc.roots).foldl
    (fun acc1 lst =>
      let partner_items := (findAllL (fun n => n.name == str "li") lst.children).filterMap
        (fun item =>
          let item_text := lowerStr item.text
          if partner_indicators.any (fun ind => substrMatch ind item_text)
              || decide (10 < item_text.length)
          then some item.text else none)
      if partner_items.isEmpty then acc1
      else acc1 ++ str "Partner List:\n" ++ List.intercalate (str "\n") partner_items
             ++ str "\n\n") acc

/-- Method 4 of extract_partner_information (lines 224-238), threaded through
the shared accumulator: run the five patterns over the whole-document text and
append every trimmed capture longer than 10 characters under a Found label. -/
def method4from (doc : Doc) (acc : Str) : Str :=
  partner_patterns.foldl (fun acc1 stems =>
    (regexFindAll stems doc.allText).foldl (fun acc2 m =>
      if !(stripStr m).isEmpty && decide (10 < (stripStr m).length)
      then acc2 ++ str "Found: " ++ stripStr m ++ str "\n"
      else acc2) acc1) acc

/-- The heading-scan heuristic output on its own. -/
def method1 (doc : Doc) : Str := method1from doc []

/-- The paragraph-scan heuristic output on its own (lines 206-207). -/
def method2 (doc : Doc) : Str :=
  if (partnerParagraphs doc).isEmpty then []
  else str "Partner Information:\n" ++ List.intercalate (str "\n") (partnerParagraphs doc)
         ++ str "\n\n"

/-- The list-scan heuristic output on its own. -/
def method3 (doc : Doc) : Str := method3from doc []

/-- The pattern-scan heuristic output on its own. -/
def method4 (doc : Doc) : Str := method4from doc []

/-- extract_partner_information (lines 177-240): the four heuristics append to
one shared accumulator, and the result is the trimmed accumulator, or the
empty string when the accumulator is empty. -/
def extract_partner_information (doc : Doc) : Str :=
  let partners_text : Str := []
  let partners_text := method1from doc partners_text
  let partners_text :=
    if (partnerParagraphs doc).isEmpty then partners_text
    else partners_text ++ str "Partner Information:\n"
           ++ List.intercalate (str "\n") (partnerParagraphs doc) ++ str "\n\n"
  let partners_text := method3from doc partners_text
  let partners_text := method4from doc partners_text
  if partners_text.isEmpty then [] else stripStr partners_text

/-- The outcome of fetching and parsing one detail page: a transport error
(requests.RequestException: unreachable host or raise_for_status on a non-2xx
status), any other exception while processing, or a parsed document. -/
inductive FetchResult : Type where
  | transportError (msg : Str)
  | parseError (msg : Str)
  | ok (doc : Doc)

/-- The fixed site root (line 13). -/
def project_base_url : Str := str "https://www.interregnorthsea.eu"

/-- The initial detail dict of the success path (lines 82-107): the acronym
cleaned by removing every character outside [a-zA-Z0-9] and lower-casing,
spliced into the about-us URL template; all text fields empty. -/
def baseDetail (acronym : Str) : DetailRecord :=
  { acronym := acronym
  , url := project_base_url ++ str "/" ++ lowerStr (acronym.filter Char.isAlphanum)
             ++ str "/about-us"
  , status := str "success"
  , title := []
  , description := []
  , objectives := []
  , partners := []
  , start_date := []
  , end_date := []
  , budget := []
  , main_content := []
  , error := [] }

/-- Title step (lines 110-112): the first h1, else the title element. -/
def applyTitle (doc : Doc) (r : DetailRecord) : DetailRecord :=
  match findNode (fun n => n.name == str "h1") doc
        <|> findNode (fun n => n.name == str "title") doc with
  | some t => { r with title := t.text }
  | none => r

/-- Main-content step (lines 115-117): the main element, else a div with
class main-content, else a div with class content. -/
def applyMain (doc : Doc) (r : DetailRecord) : DetailRecord :=
  match findNode (fun n => n.name == str "main") doc
        <|> findNode (fun n => n.name == str "div"
              && n.classes.contains (str "main-content")) doc
        <|> findNode (fun n => n.name == str "div"
              && n.classes.contains (str "content")) doc with
  | some m => { r with main_content := m.text }
  | none => r

/-- Partners step (lines 120-122): set only when the extractor found text. -/
def applyPartners (doc : Doc) (r : DetailRecord) : DetailRecord :=
  let partners_text := extract_partner_information doc
  if partners_text.isEmpty then r else { r with partners := partners_text }

/-- One iteration of the section scan (lines 126-133): classify the element
text by keyword containment with the if/elif precedence and overwrite the
matching field. -/
def sectionUpdate (r : DetailRecord) (text : Str) : DetailRecord :=
  let lt := lowerStr text
  if substrMatch (str "objective") lt || substrMatch (str "goal") lt then
    { r with objectives := text }
  else if substrMatch (str "start") lt && substrMatch (str "date") lt then
    { r with start_date := text }
  else if substrMatch (str "budget") lt || substrMatch (str "funding") lt then
    { r with budget := text }
  else r

/-- Section scan step (lines 125-133): fold over every h2, h3 and p element
in document order. -/
def applySections (doc : Doc) (r : DetailRecord) : DetailRecord :=
  (findAllL (tagIn [str "h2", str "h3", str "p"]) doc.roots).foldl
    (fun r s => sectionUpdate r s.text) r

/-- Attribute lookup on an element (Python tag.get). -/
def attrGet (n : Node) (key : Str) : Option Str :=
  (n.attrs.find? (fun kv => kv.1 == key)).map Prod.snd

/-- Description step (lines 136-142): the content attribute of the
meta-description tag if that tag exists, else the text of the first
paragraph if one exists. -/
def applyDescription (doc : Doc) (r : DetailRecord) : DetailRecord :=
  match findNode (fun n => n.name == str "meta"
          && attrGet n (str "name") == some (str "description")) doc with
  | some m => { r with description := (attrGet m (str "content")).getD [] }
  | none =>
    match findNode (fun n => n.name == str "p") doc with
    | some p => { r with description := p.text }
    | none => r

/-- scrape_project_details (lines 79-175) as a total function of the fetch
outcome: the success path applies the five extraction steps in order; each
failure path rebuilds the derived URL and returns the failed record with the
human-readable error cause. -/
def scrape_project_details (acronym : Str) (fetched : FetchResult) : DetailRecord :=
  match fetched with
  | .ok doc =>
    applyDescription doc (applySections doc (applyPartners doc
      (applyMain doc (applyTitle doc (baseDetail acronym)))))
  | .transportError e =>
    { acronym := acronym
    , url := project_base_url ++ str "/" ++ lowerStr (acronym.filter Char.isAlphanum)
               ++ str "/about-us"
    , status := str "failed"
    , title := []
    , description := []
    , objectives := []
    , partners := []
    , start_date := []
    , end_date := []
    , budget := []
    , main_content := []
    , error := str "Request failed: " ++ e }
  | .parseError e =>
    { acronym := acronym
    , url := project_base_url ++ str "/" ++ lowerStr (acronym.filter Char.isAlphanum)
               ++ str "/about-us"
    , status := str "failed"
    , title := []
    , description := []
    , objectives := []
    , partners := []
    , start_date := []
    , end_date := []
    , budget := []
    , main_content := []
    , error := str "Scraping failed: " ++ e }

/-- The body of the detail-scraping loop (lines 264-275): records with an
empty acronym are skipped entirely; otherwise the detail record is appended
and, when the 1-based index is below the total, one sleep is taken. The
second component counts the time.sleep calls. -/
def scrapeAllBody (fetch : Str → FetchResult) (total_projects : Nat)
    (acc : List DetailRecord × Nat) (ip : Nat × ListingRecord) :
    List DetailRecord × Nat :=
  if ip.2.acronym.isEmpty then acc
  else
    let acc1 := (acc.1 ++ [scrape_project_details ip.2.acronym (fetch ip.2.acronym)],
                 acc.2)
    if ip.1 < total_projects then (acc1.1, acc1.2 + 1) else acc1

/-- scrape_all_project_details (lines 257-278), with the transport collaborator
passed as an oracle from acronyms to fetch outcomes. -/
def scrape_all_project_details (fetch : Str → FetchResult)
    (projects : List ListingRecord) : List DetailRecord × Nat :=
  (projects.enumFrom 1).foldl (scrapeAllBody fetch projects.length) ([], 0)

/-- The derived about-us URL as a function of the acronym alone. -/
def derive_url (acronym : Str) : Str :=
  project_base_url ++ str "/" ++ lowerStr (acronym.filter Char.isAlphanum)
    ++ str "/about-us"

theorem applyTitle_pres (doc : Doc) (r : DetailRecord) :
    (applyTitle doc r).url = r.url
    ∧ (applyTitle doc r).objectives = r.objectives
    ∧ (applyTitle doc r).start_date = r.start_date
    ∧ (applyTitle doc r).budget = r.budget
    ∧ (applyTitle doc r).end_date = r.end_date
    ∧ (applyTitle doc r).acronym = r.acronym := by
  unfold applyTitle
  cases findNode (fun n => n.name == str "h1") doc
      <|> findNode (fun n => n.name == str "title") doc <;> simp

theorem applyMain_pres (doc : Doc) (r : DetailRecord) :
    (applyMain doc r).url = r.url
    ∧ (applyMain doc r).objectives = r.objectives
    ∧ (applyMain doc r).start_date = r.start_date
    ∧ (applyMain doc r).budget = r.budget
    ∧ (applyMain doc r).end_date = r.end_date
    ∧ (applyMain doc r).acronym = r.acronym := by
  unfold applyMain
  cases findNode (fun n => n.name == str "main") doc
      <|> findNode (fun n => n.name == str "div"
            && n.classes.contains (str "main-content")) doc
      <|> findNode (fun n => n.name == str "div"
            && n.classes.contains (str "content")) doc <;> simp

theorem applyPartners_pres (doc : Doc) (r : DetailRecord) :
    (applyPartners doc r).url = r.url
    ∧ (applyPartners doc r).objectives = r.objectives
    ∧ (applyPartners doc r).start_date = r.start_date
    ∧ (applyPartners doc r).budget = r.budget
    ∧ (applyPartners doc r).end_date = r.end_date
    ∧ (applyPartners doc r).acronym = r.acronym := by
  unfold applyPartners
  by_cases h : (extract_partner_information doc).isEmpty <;> simp [h]

theorem applyDescription_pres (doc : Doc) (r : DetailRecord) :
    (applyDescription doc r).url = r.url
    ∧ (applyDescription doc r).objectives = r.objectives
    ∧ (applyDescription doc r).start_date = r.start_date
    ∧ (applyDescription doc r).budget = r.budget
    ∧ (applyDescription doc r).end_date = r.end_date
    ∧ (applyDescription doc r).acronym = r.acronym := by
  unfold applyDescription
  cases findNode (fun n => n.name == str "meta"
      && attrGet n (str "name") == some (str "description")) doc with
  | some m => simp
  | none => cases findNode (fun n => n.name == str "p") doc <;> simp

/-- Which of the three overwrite targets the section scan picks for a text,
following the if/elif precedence of lines 128-133. -/
inductive SectionField : Type where
  | objectives
  | startDate
  | budget
deriving DecidableEq, Repr

/-- The if/elif classification of one scanned element text. -/
def classifySection (t : Str) : Option SectionField :=
  let lt := lowerStr t
  if substrMatch (str "objective") lt || substrMatch (str "goal") lt then
    some .objectives
  else if substrMatch (str "start") lt && substrMatch (str "date") lt then
    some .startDate
  else if substrMatch (str "budget") lt || substrMatch (str "funding") lt then
    some .budget
  else none

theorem sectionUpdate_classify (r : DetailRecord) (t : Str) :
    sectionUpdate r t
      = match classifySection t with
        | some .objectives => { r with objectives := t }
        | some .startDate => { r with start_date := t }
        | some .budget => { r with budget := t }
        | none => r := by
  simp only [sectionUpdate, classifySection]
  split_ifs <;> rfl

/-- The last element of a list, or the given default when the list is empty. -/
def lastOrDefault (d : Str) : List Str → Str
  | [] => d
  | x :: xs => lastOrDefault x xs

theorem foldSections_objectives (ss : List Str) :
    ∀ r : DetailRecord,
      (ss.foldl sectionUpdate r).objectives
        = lastOrDefault r.objectives
            (ss.filter (fun t => classifySection t == some .objectives)) := by
  induction ss with
  | nil => intro r; rfl
  | cons t ss ih =>
    intro r
    rw [List.foldl_cons, sectionUpdate_classify]
    cases hc : classifySection t with
    | none => simpa [List.filter_cons, hc, lastOrDefault] using ih r
    | some f =>
      cases f with
      | objectives =>
        simpa [List.filter_cons, hc, lastOrDefault] using ih { r with objectives := t }
      | startDate =>
        simpa [List.filter_cons, hc, lastOrDefault] using ih { r with start_date := t }
      | budget =>
        simpa [List.filter_cons, hc, lastOrDefault] using ih { r with budget := t }

theorem foldSections_start_date (ss : List Str) :
    ∀ r : DetailRecord,
      (ss.foldl sectionUpdate r).start_date
        = lastOrDefault r.start_date
            (ss.filter (fun t => classifySection t == some .startDate)) := by
  induction ss with
  | nil => intro r; rfl
  | cons t ss ih =>
    intro r
    rw [List.foldl_cons, sectionUpdate_classify]
    cases hc : classifySection t with
    | none => simpa [List.filter_cons, hc, lastOrDefault] using ih r
    | some f =>
      cases f with
      | objectives =>
        simpa [List.filter_cons, hc, lastOrDefault] using ih { r with objectives := t }
      | startDate =>
        simpa [List.filter_cons, hc, lastOrDefault] using ih { r with start_date := t }
      | budget =>
        simpa [List.filter_cons, hc, lastOrDefault] using ih { r with budget := t }

theorem foldSections_budget (ss : List Str) :
    ∀ r : DetailRecord,
      (ss.foldl sectionUpdate r).budget
        = lastOrDefault r.budget
            (ss.filter (fun t => classifySection t == some .budget)) := by
  induction ss with
  | nil => intro r; rfl
  | cons t ss ih =>
    intro r
    rw [List.foldl_cons, sectionUpdate_classify]
    cases hc : classifySection t with
    | none => simpa [List.filter_cons, hc, lastOrDefault] using ih r
    | some f =>
      cases f with
      | objectives =>
        simpa [List.filter_cons, hc, lastOrDefault] using ih { r with objectives := t }
      | startDate =>
        simpa [List.filter_cons, hc, lastOrDefault] using ih { r with start_date := t }
      | budget =>
        simpa [List.filter_cons, hc, lastOrDefault] using ih { r with budget := t }

theorem foldSections_pres (ss : List Str) :
    ∀ r : DetailRecord,
      (ss.foldl sectionUpdate r).url = r.url
      ∧ (ss.foldl sectionUpdate r).end_date = r.end_date
      ∧ (ss.foldl sectionUpdate r).acronym = r.acronym := by
  induction ss with
  | nil => intro r; exact ⟨rfl, rfl, rfl⟩
  | cons t ss ih =>
    intro r
    rw [List.foldl_cons, sectionUpdate_classify]
    cases hc : classifySection t with
    | none => simpa using ih r
    | some f =>
      cases f with
      | objectives => simpa using ih { r with objectives := t }
      | startDate => simpa using ih { r with start_date := t }
      | budget => simpa using ih { r with budget := t }

theorem applySections_pres (doc : Doc) (r : DetailRecord) :
    (applySections doc r).url = r.url
    ∧ (applySections doc r).end_date = r.end_date
    ∧ (applySections doc r).acronym = r.acronym := by
  unfold applySections
  rw [← List.foldl_map Node.text sectionUpdate]
  exact foldSections_pres _ r

/-- C2: both failure paths return a record with status failed, a non-empty
human-readable error, every other text field empty, the derived URL, and the
caller-supplied acronym. (The Lean function is total, modelling that the
Python function never raises to its caller.) -/
theorem c2_failure_paths (acronym msg : Str) :
    ((scrape_project_details acronym (.transportError msg)).status = str "failed"
     ∧ (scrape_project_details acronym (.transportError msg)).error ≠ []
     ∧ (scrape_project_details acronym (.transportError msg)).title = []
     ∧ (scrape_project_details acronym (.transportError msg)).description = []
     ∧ (scrape_project_details acronym (.transportError msg)).objectives = []
     ∧ (scrape_project_details acronym (.transportError msg)).partners = []
     ∧ (scrape_project_details acronym (.transportError msg)).start_date = []
     ∧ (scrape_project_details acronym (.transportError msg)).end_date = []
     ∧ (scrape_project_details acronym (.transportError msg)).budget = []
     ∧ (scrape_project_details acronym (.transportError msg)).main_content = []
     ∧ (scrape_project_details acronym (.transportError msg)).url = derive_url acronym
     ∧ (scrape_project_details acronym (.transportError msg)).acronym = acronym)
    ∧ ((scrape_project_details acronym (.parseError msg)).status = str "failed"
     ∧ (scrape_project_details acronym (.parseError msg)).error ≠ []
     ∧ (scrape_project_details acronym (.parseError msg)).title = []
     ∧ (scrape_project_details acronym (.parseError msg)).description = []
     ∧ (scrape_project_details acronym (.parseError msg)).objectives = []
     ∧ (scrape_project_details acronym (.parseError msg)).partners = []
     ∧ (scrape_project_details acronym (.parseError msg)).start_date = []
     ∧ (scrape_project_details acronym (.parseError msg)).end_date = []
     ∧ (scrape_project_details acronym (.parseError msg)).budget = []
     ∧ (scrape_project_details acronym (.parseError msg)).main_content = []
     ∧ (scrape_project_details acronym (.parseError msg)).url = derive_url acronym
     ∧ (scrape_project_details acronym (.parseError msg)).acronym = acronym) := by
  constructor
  · refine ⟨rfl, ?_, rfl, rfl, rfl, rfl, rfl, rfl, rfl, rfl, rfl, rfl⟩
    show str "Request failed: " ++ msg ≠ []
    have h1 : str "Request failed: " = 'R' :: str "equest failed: " := rfl
    rw [h1, List.cons_append]
    exact List.cons_ne_nil _ _
  · refine ⟨rfl, ?_, rfl, rfl, rfl, rfl, rfl, rfl, rfl, rfl, rfl, rfl⟩
    show str "Scraping failed: " ++ msg ≠ []
    have h1 : str "Scraping failed: " = 'S' :: str "craping failed: " := rfl
    rw [h1, List.cons_append]
    exact List.cons_ne_nil _ _

/-- C3: the url of every returned record, on the success path and on both
failure paths, is the fixed site root, a slash, the acronym with all
non-alphanumeric ASCII characters removed and lower-cased, then /about-us;
and the derivation identifies North-Sea!! with northsea. -/
theorem c3_url_derivation :
    (∀ (acronym : Str) (fetched : FetchResult),
        (scrape_project_details acronym fetched).url = derive_url acronym)
    ∧ derive_url (str "North-Sea!!") = derive_url (str "northsea")
    ∧ derive_url (str "northsea")
        = str "https://www.interregnorthsea.eu/northsea/about-us" := by
  refine ⟨?_, by decide, by decide⟩
  intro acronym fetched
  cases fetched with
  | transportError e => rfl
  | parseError e => rfl
  | ok doc =>
    show (applyDescription doc (applySections doc (applyPartners doc
      (applyMain doc (applyTitle doc (baseDetail acronym)))))).url = derive_url acronym
    rw [(applyDescription_pres doc _).1, (applySections_pres doc _).1,
      (applyPartners_pres doc _).1, (applyMain_pres doc _).1,
      (applyTitle_pres doc _).1]
    rfl

/-- C9: end_date is never assigned: every path of the detail extractor, the
success path with all its extraction steps included, returns end_date empty. -/
theorem c9_end_date_empty (acronym : Str) (fetched : FetchResult) :
    (scrape_project_details acronym fetched).end_date = [] := by
  cases fetched with
  | transportError e => rfl
  | parseError e => rfl
  | ok doc =>
    show (applyDescription doc (applySections doc (applyPartners doc
      (applyMain doc (applyTitle doc (baseDetail acronym)))))).end_date = []
    rw [(applyDescription_pres doc _).2.2.2.2.1, (applySections_pres doc _).2.1,
      (applyPartners_pres doc _).2.2.2.2.1, (applyMain_pres doc _).2.2.2.2.1,
      (applyTitle_pres doc _).2.2.2.2.1]
    rfl

/-- C4: on the success path the three classified fields each hold the text of
the last h2, h3 or p element, in document order, whose text the if/elif
keyword test assigns to that field, and the empty string when no element
matches. -/
theorem c4_section_scan (acronym : Str) (doc : Doc) :
    (scrape_project_details acronym (.ok doc)).objectives
      = lastOrDefault []
          (((findAllL (tagIn [str "h2", str "h3", str "p"]) doc.roots).map Node.text).filter
            (fun t => classifySection t == some .objectives))
    ∧ (scrape_project_details acronym (.ok doc)).start_date
      = lastOrDefault []
          (((findAllL (tagIn [str "h2", str "h3", str "p"]) doc.roots).map Node.text).filter
            (fun t => classifySection t == some .startDate))
    ∧ (scrape_project_details acronym (.ok doc)).budget
      = lastOrDefault []
          (((findAllL (tagIn [str "h2", str "h3", str "p"]) doc.roots).map Node.text).filter
            (fun t => classifySection t == some .budget)) := by
  have hpre : (applyPartners doc (applyMain doc (applyTitle doc
      (baseDetail acronym)))).objectives = []
      ∧ (applyPartners doc (applyMain doc (applyTitle doc
      (baseDetail acronym)))).start_date = []
      ∧ (applyPartners doc (applyMain doc (applyTitle doc
      (baseDetail acronym)))).budget = [] := by
    refine ⟨?_, ?_, ?_⟩
    · rw [(applyPartners_pres doc _).2.1, (applyMain_pres doc _).2.1,
        (applyTitle_pres doc _).2.1]
      rfl
    · rw [(applyPartners_pres doc _).2.2.1, (applyMain_pres doc _).2.2.1,
        (applyTitle_pres doc _).2.2.1]
      rfl
    · rw [(applyPartners_pres doc _).2.2.2.1, (applyMain_pres doc _).2.2.2.1,
        (applyTitle_pres doc _).2.2.2.1]
      rfl
  have hchain : scrape_project_details acronym (.ok doc)
      = applyDescription doc (applySections doc (applyPartners doc
          (applyMain doc (applyTitle doc (baseDetail acronym))))) := rfl
  have hsec : applySections doc (applyPartners doc (applyMain doc (applyTitle doc
      (baseDetail acronym))))
      = ((findAllL (tagIn [str "h2", str "h3", str "p"]) doc.roots).map Node.text).foldl
          sectionUpdate (applyPartners doc (applyMain doc (applyTitle doc
            (baseDetail acronym)))) := by
    unfold applySections
    rw [← List.foldl_map Node.text sectionUpdate]
  refine ⟨?_, ?_, ?_⟩
  · rw [hchain, (applyDescription_pres doc _).2.1, hsec,
      foldSections_objectives, hpre.1]
  · rw [hchain, (applyDescription_pres doc _).2.2.1, hsec,
      foldSections_start_date, hpre.2.1]
  · rw [hchain, (applyDescription_pres doc _).2.2.2.1, hsec,
      foldSections_budget, hpre.2.2]

theorem scrape_acronym (a : Str) (f : FetchResult) :
    (scrape_project_details a f).acronym = a := by
  cases f with
  | transportError e => rfl
  | parseError e => rfl
  | ok doc =>
    show (applyDescription doc (applySections doc (applyPartners doc
      (applyMain doc (applyTitle doc (baseDetail a)))))).acronym = a
    rw [(applyDescription_pres doc _).2.2.2.2.2, (applySections_pres doc _).2.2,
      (applyPartners_pres doc _).2.2.2.2.2, (applyMain_pres doc _).2.2.2.2.2,
      (applyTitle_pres doc _).2.2.2.2.2]
    rfl

theorem scrapeAll_aux (fetch : Str → FetchResult) (total : Nat) :
    ∀ (l : List ListingRecord) (n : Nat) (recs : List DetailRecord) (slp : Nat),
      ((l.enumFrom n).foldl (scrapeAllBody fetch total) (recs, slp)).1
        = recs ++ (l.filter (fun p => !p.acronym.isEmpty)).map
            (fun p => scrape_project_details p.acronym (fetch p.acronym))
      ∧ ((l.enumFrom n).foldl (scrapeAllBody fetch total) (recs, slp)).2
        = slp + (l.enumFrom n).countP
            (fun ip => !ip.2.acronym.isEmpty && decide (ip.1 < total)) := by
  intro l
  induction l with
  | nil => intro n recs slp; simp [List.enumFrom]
  | cons p rest ih =>
    intro n recs slp
    by_cases hemp : p.acronym.isEmpty
    · have hb : scrapeAllBody fetch total (recs, slp) (n, p) = (recs, slp) := by
        simp [scrapeAllBody, hemp]
      obtain ⟨h1, h2⟩ := ih (n + 1) recs slp
      constructor
      · rw [List.enumFrom, List.foldl_cons, hb, h1]
        simp [List.filter_cons, hemp]
      · rw [List.enumFrom, List.foldl_cons, hb, h2, List.countP_cons]
        simp [hemp]
    · have hd := scrape_project_details p.acronym (fetch p.acronym)
      by_cases hlt : n < total
      · have hb : scrapeAllBody fetch total (recs, slp) (n, p)
            = (recs ++ [scrape_project_details p.acronym (fetch p.acronym)], slp + 1) := by
          simp [scrapeAllBody, hemp, hlt]
        obtain ⟨h1, h2⟩ := ih (n + 1)
          (recs ++ [scrape_project_details p.acronym (fetch p.acronym)]) (slp + 1)
        constructor
        · rw [List.enumFrom, List.foldl_cons, hb, h1]
          simp [List.filter_cons, hemp]
        · rw [List.enumFrom, List.foldl_cons, hb, h2, List.countP_cons]
          simp [hemp, hlt]
          omega
      · have hb : scrapeAllBody fetch total (recs, slp) (n, p)
            = (recs ++ [scrape_project_details p.acronym (fetch p.acronym)], slp) := by
          simp [scrapeAllBody, hemp, hlt]
        obtain ⟨h1, h2⟩ := ih (n + 1)
          (recs ++ [scrape_project_details p.acronym (fetch p.acronym)]) slp
        constructor
        · rw [List.enumFrom, List.foldl_cons, hb, h1]
          simp [List.filter_cons, hemp]
        · rw [List.enumFrom, List.foldl_cons, hb, h2, List.countP_cons]
          simp [hemp, hlt]

/-- C10: the detail loop yields exactly one record per listing row with a
non-empty acronym, in listing order; rows with an empty acronym are skipped
with no record and no sleep; every returned record carries a non-empty
acronym; and the output is never longer than the input. The second component
counts the sleep calls: one per scraped row whose 1-based index is below the
total. -/
theorem c10_detail_loop (fetch : Str → FetchResult) (projects : List ListingRecord) :
    (scrape_all_project_details fetch projects).1
      = (projects.filter (fun p => !p.acronym.isEmpty)).map
          (fun p => scrape_project_details p.acronym (fetch p.acronym))
    ∧ (scrape_all_project_details fetch projects).1.length ≤ projects.length
    ∧ (∀ d ∈ (scrape_all_project_details fetch projects).1, d.acronym ≠ [])
    ∧ (scrape_all_project_details fetch projects).2
      = (projects.enumFrom 1).countP
          (fun ip => !ip.2.acronym.isEmpty && decide (ip.1 < projects.length)) := by
  obtain ⟨h1, h2⟩ := scrapeAll_aux fetch projects.length projects 1 [] 0
  have hmain : (scrape_all_project_details fetch projects).1
      = (projects.filter (fun p => !p.acronym.isEmpty)).map
          (fun p => scrape_project_details p.acronym (fetch p.acronym)) := by
    simpa [scrape_all_project_details] using h1
  refine ⟨hmain, ?_, ?_, by simpa [scrape_all_project_details] using h2⟩
  · rw [hmain, List.length_map]
    exact List.length_filter_le _ _
  · intro d hd
    rw [hmain] at hd
    obtain ⟨p, hp, rfl⟩ := List.mem_map.mp hd
    rw [scrape_acronym]
    have hmem := List.of_mem_filter hp
    intro hnil
    rw [hnil] at hmem
    simp at hmem

theorem c10_detail_loop_witness :
    (scrape_project_details (str "ABC") (FetchResult.transportError [])).acronym ≠ [] := by
  have h := (c10_detail_loop (fun a => FetchResult.transportError [])
    [sampleListing]).2.2.1
  exact h _ (by decide)

theorem foldl_shift {α : Type} (f : Str → α → Str)
    (hf : ∀ (a : Str) (x : α), f a x = a ++ f [] x) :
    ∀ (l : List α) (a : Str), l.foldl f a = a ++ l.foldl f [] := by
  intro l
  induction l with
  | nil => intro a; simp
  | cons x t ih =>
    intro a
    rw [List.foldl_cons, List.foldl_cons, ih (f a x), ih (f [] x), hf a x,
      List.append_assoc]

theorem foldl_nonws {α : Type} (f : Str → α → Str)
    (hf : ∀ (a : Str) (x : α), f a x = a ++ f [] x)
    (hg : ∀ x : α, f [] x ≠ [] → ∃ c ∈ f [] x, ¬ c.isWhitespace = true) :
    ∀ l : List α, l.foldl f [] ≠ [] → ∃ c ∈ l.foldl f [], ¬ c.isWhitespace = true := by
  intro l
  induction l with
  | nil => intro h; exact absurd rfl h
  | cons x t ih =>
    intro h
    rw [List.foldl_cons] at h ⊢
    rw [foldl_shift f hf t (f [] x)] at h ⊢
    by_cases hx : f [] x = []
    · rw [hx] at h ⊢
      simp only [List.nil_append] at h ⊢
      exact ih h
    · obtain ⟨c, hcm, hcw⟩ := hg x hx
      exact ⟨c, List.mem_append_left _ hcm, hcw⟩

theorem method1from_shift (doc : Doc) (a : Str) :
    method1from doc a = a ++ method1 doc := by
  unfold method1 method1from
  refine foldl_shift _ ?_ _ a
  intro a1 ind
  refine foldl_shift _ ?_ _ a1
  intro a2 hs
  by_cases hc : substrMatch ind (lowerStr hs.1.text)
  · by_cases hps : (extract_section_content hs.2).isEmpty
    · simp [hc, hps]
    · simp [hc, hps]
  · simp [hc]

theorem method3from_shift (doc : Doc) (a : Str) :
    method3from doc a = a ++ method3 doc := by
  unfold method3 method3from
  refine foldl_shift _ ?_ _ a
  intro a1 lst
  cases hit : ((findAllL (fun n => n.name == str "li") lst.children).filterMap
      (fun item =>
        let item_text := lowerStr item.text
        if partner_indicators.any (fun ind => substrMatch ind item_text)
            || decide (10 < item_text.length)
        then some item.text else none)).isEmpty with
  | true =>
    simp only [hit]
    simp
  | false =>
    simp only [hit]
    simp

theorem method4from_shift (doc : Doc) (a : Str) :
    method4from doc a = a ++ method4 doc := by
  unfold method4 method4from
  refine foldl_shift _ ?_ _ a
  intro a1 stems
  refine foldl_shift _ ?_ _ a1
  intro a2 m
  by_cases hm : (!(stripStr m).isEmpty && decide (10 < (stripStr m).length)) = true
  · simp [hm]
  · simp [hm]

theorem extract_partner_information_eq (doc : Doc) :
    extract_partner_information doc
      = stripStr (method1 doc ++ method2 doc ++ method3 doc ++ method4 doc) := by
  show (if (method4from doc (method3from doc
      (if (partnerParagraphs doc).isEmpty then method1from doc []
       else method1from doc [] ++ str "Partner Information:\n"
         ++ List.intercalate (str "\n") (partnerParagraphs doc) ++ str "\n\n"))).isEmpty
     then ([] : Str)
     else stripStr (method4from doc (method3from doc
      (if (partnerParagraphs doc).isEmpty then method1from doc []
       else method1from doc [] ++ str "Partner Information:\n"
         ++ List.intercalate (str "\n") (partnerParagraphs doc) ++ str "\n\n"))))
    = stripStr (method1 doc ++ method2 doc ++ method3 doc ++ method4 doc)
  have h2 : (if (partnerParagraphs doc).isEmpty then method1from doc []
      else method1from doc [] ++ str "Partner Information:\n"
        ++ List.intercalate (str "\n") (partnerParagraphs doc) ++ str "\n\n")
      = method1 doc ++ method2 doc := by
    unfold method2
    cases hp : (partnerParagraphs doc).isEmpty with
    | true => simp [method1]
    | false => simp [method1]
  rw [h2, method3from_shift, method4from_shift]
  by_cases he : (method1 doc ++ method2 doc ++ method3 doc ++ method4 doc).isEmpty
  · rw [if_pos he]
    have hnil : method1 doc ++ method2 doc ++ method3 doc ++ method4 doc = [] := by
      simpa using he
    rw [hnil]
    rfl
  · rw [if_neg he]

theorem nonws_mem_dropWhile {c : Char} (hc : ¬ c.isWhitespace = true) :
    ∀ s : Str, c ∈ s → c ∈ s.dropWhile Char.isWhitespace := by
  intro s
  induction s with
  | nil => intro h; exact absurd h (List.not_mem_nil c)
  | cons a t ih =>
    intro h
    rw [List.dropWhile_cons]
    by_cases ha : a.isWhitespace = true
    · rw [if_pos ha]
      rcases List.mem_cons.mp h with rfl | hm
      · exact absurd ha hc
      · exact ih hm
    · rw [if_neg ha]
      exact h

theorem stripStr_ne_nil {c : Char} {s : Str} (hm : c ∈ s)
    (hc : ¬ c.isWhitespace = true) : stripStr s ≠ [] := by
  unfold stripStr
  intro h
  have h1 : c ∈ s.dropWhile Char.isWhitespace := nonws_mem_dropWhile hc s hm
  have h2 : c ∈ (s.dropWhile Char.isWhitespace).reverse := List.mem_reverse.mpr h1
  have h3 : c ∈ ((s.dropWhile Char.isWhitespace).reverse).dropWhile Char.isWhitespace :=
    nonws_mem_dropWhile hc _ h2
  have h4 : c ∈ (((s.dropWhile Char.isWhitespace).reverse).dropWhile
      Char.isWhitespace).reverse := List.mem_reverse.mpr h3
  rw [h] at h4
  exact List.not_mem_nil c h4

theorem method1_nonws (doc : Doc) :
    method1 doc ≠ [] → ∃ c ∈ method1 doc, ¬ c.isWhitespace = true := by
  unfold method1 method1from
  refine foldl_nonws _ ?_ ?_ _
  · intro a1 ind
    refine foldl_shift _ ?_ _ a1
    intro a2 hs
    by_cases hc : substrMatch ind (lowerStr hs.1.text)
    · by_cases hps : (extract_section_content hs.2).isEmpty
      · simp [hc, hps]
      · simp [hc, hps]
    · simp [hc]
  · intro ind
    refine foldl_nonws _ ?_ ?_ _
    · intro a2 hs
      by_cases hc : substrMatch ind (lowerStr hs.1.text)
      · by_cases hps : (extract_section_content hs.2).isEmpty
        · simp [hc, hps]
        · simp [hc, hps]
      · simp [hc]
    · intro hs hne
      cases hc : substrMatch ind (lowerStr hs.1.text) with
      | false =>
        simp only [hc] at hne
        exact absurd rfl hne
      | true =>
        cases hps : (extract_section_content hs.2).isEmpty with
        | true =>
          simp only [hc, hps] at hne
          exact absurd rfl hne
        | false =>
          simp only [hc, hps]
          refine ⟨':', ?_, by decide⟩
          exact List.mem_append_left _ (List.mem_append_left _
            (List.mem_append_right _ (by decide)))

theorem method2_nonws (doc : Doc) :
    method2 doc ≠ [] → ∃ c ∈ method2 doc, ¬ c.isWhitespace = true := by
  unfold method2
  cases hp : (partnerParagraphs doc).isEmpty with
  | true =>
    intro hne
    exact absurd rfl hne
  | false =>
    intro hne
    refine ⟨'P', ?_, by decide⟩
    exact List.mem_append_left _ (List.mem_append_left _ (by decide))

theorem method3_nonws (doc : Doc) :
    method3 doc ≠ [] → ∃ c ∈ method3 doc, ¬ c.isWhitespace = true := by
  unfold method3 method3from
  refine foldl_nonws _ ?_ ?_ _
  · intro a1 lst
    cases hit : ((findAllL (fun n => n.name == str "li") lst.children).filterMap
      (fun item =>
        let item_text := lowerStr item.text
        if partner_indicators.any (fun ind => substrMatch ind item_text)
            || decide (10 < item_text.length)
        then some item.text else none)).isEmpty with
    | true =>
      simp only [hit]
      simp
    | false =>
      simp only [hit]
      simp
  · intro lst hne
    cases hit : ((findAllL (fun n => n.name == str "li") lst.children).filterMap
      (fun item =>
        let item_text := lowerStr item.text
        if partner_indicators.any (fun ind => substrMatch ind item_text)
            || decide (10 < item_text.length)
        then some item.text else none)).isEmpty with
    | true =>
      simp only [hit] at hne
      exact absurd rfl hne
    | false =>
      simp only [hit]
      refine ⟨'P', ?_, by decide⟩
      exact List.mem_append_left _ (List.mem_append_left _ (by decide))

theorem method4_nonws (doc : Doc) :
    method4 doc ≠ [] → ∃ c ∈ method4 doc, ¬ c.isWhitespace = true := by
  unfold method4 method4from
  refine foldl_nonws _ ?_ ?_ _
  · intro a1 stems
    refine foldl_shift _ ?_ _ a1
    intro a2 m
    by_cases hm : (!(stripStr m).isEmpty && decide (10 < (stripStr m).length)) = true
    · simp [hm]
    · simp [hm]
  · intro stems
    refine foldl_nonws _ ?_ ?_ _
    · intro a2 m
      by_cases hm : (!(stripStr m).isEmpty && decide (10 < (stripStr m).length)) = true
      · simp [hm]
      · simp [hm]
    · intro m hne
      cases hm : !(stripStr m).isEmpty && decide (10 < (stripStr m).length) with
      | false =>
        simp only [hm] at hne
        exact absurd rfl hne
      | true =>
        simp only [hm]
        refine ⟨'F', ?_, by decide⟩
        exact List.mem_append_left _ (List.mem_append_left _ (by decide))

/-- C5: the partner extractor is total (never raises), its output is the
trimmed concatenation of the four heuristic blocks in the fixed order
heading-scan, paragraph-scan, list-scan, pattern-scan, and the output is
empty exactly when all four heuristics yield nothing. -/
theorem c5_partner_extractor (doc : Doc) :
    extract_partner_information doc
      = stripStr (method1 doc ++ method2 doc ++ method3 doc ++ method4 doc)
    ∧ (extract_partner_information doc = []
        ↔ method1 doc = [] ∧ method2 doc = [] ∧ method3 doc = []
            ∧ method4 doc = []) := by
  refine ⟨extract_partner_information_eq doc, ?_, ?_⟩
  · intro h
    rw [extract_partner_information_eq doc] at h
    refine ⟨?_, ?_, ?_, ?_⟩
    · by_contra h1
      obtain ⟨c, hcm, hcw⟩ := method1_nonws doc h1
      have hall : c ∈ method1 doc ++ method2 doc ++ method3 doc ++ method4 doc :=
        List.mem_append_left _ (List.mem_append_left _ (List.mem_append_left _ hcm))
      exact stripStr_ne_nil hall hcw h
    · by_contra h2
      obtain ⟨c, hcm, hcw⟩ := method2_nonws doc h2
      have hall : c ∈ method1 doc ++ method2 doc ++ method3 doc ++ method4 doc :=
        List.mem_append_left _ (List.mem_append_left _ (List.mem_append_right _ hcm))
      exact stripStr_ne_nil hall hcw h
    · by_contra h3
      obtain ⟨c, hcm, hcw⟩ := method3_nonws doc h3
      have hall : c ∈ method1 doc ++ method2 doc ++ method3 doc ++ method4 doc :=
        List.mem_append_left _ (List.mem_append_right _ hcm)
      exact stripStr_ne_nil hall hcw h
    · by_contra h4
      obtain ⟨c, hcm, hcw⟩ := method4_nonws doc h4
      have hall : c ∈ method1 doc ++ method2 doc ++ method3 doc ++ method4 doc :=
        List.mem_append_right _ hcm
      exact stripStr_ne_nil hall hcw h
  · rintro ⟨h1, h2, h3, h4⟩
    rw [extract_partner_information_eq doc, h1, h2, h3, h4]
    rfl

theorem c2_failure_paths_witness :
    (scrape_project_details (str "ABC") (FetchResult.transportError (str "boom"))).status
      = str "failed" :=
  (c2_failure_paths (str "ABC") (str "boom")).1.1

theorem c5_partner_extractor_witness :
    extract_partner_information ⟨[], []⟩ = [] :=
  (c5_partner_extractor ⟨[], []⟩).2.mpr
    ⟨by simp [method1, method1from, findAllP],
     by simp [method2, partnerParagraphs, findAllL, findAllP],
     by simp [method3, method3from, findAllL, findAllP],
     by simp [method4, method4from, regexFindAll, regexFindAllAux]⟩

end Interreg
